import Mathlib

/-!
Verification of the CAN29 serial bridge (`port_emulator.py`).

Shallow embedding: bytes are `Nat` (the Python values are always in 0..255 but
nothing in the verified code depends on that bound), byte strings are
`List Nat`, fallible Python code returns `Except`.
-/

/-- A Python exception raised by the forwarding/sending code:
`IndexError` from an out-of-range `bytearray` index, or the
`AssertionError` from the length check in `send_raw`. -/
inductive PyError where
  | indexError
  | assertionError
deriving DecidableEq, Repr

/-- `l[i]` on a Python sequence: the element, or an `IndexError`. -/
def idx (l : List Nat) (i : Nat) : Except PyError Nat :=
  match l.get? i with
  | some v => Except.ok v
  | none => Except.error PyError.indexError

/-- The argument tuple of one `self._d.SendMessage(...)` call made by
`CANCommunication.send_message` — i.e. one message handed to the backend. -/
structure SentMessage where
  destination_addr : Nat
  source_addr : Nat
  cmd_class : Nat
  cmd_number : Nat
  sub_nr : Nat
  proc_id : Nat
  extra_data : Option (List Nat)
deriving DecidableEq, Repr

/-- `encode_can29_message` from the source: start with `[0x10, 0x02]`, for each
byte `c` append an extra `0x10` first when `c` is `0x10` or `0x0d`, then
append `c`; finally extend with `[0x10, 0x03]`. -/
def encode_can29_message (raw_message : List Nat) : List Nat :=
  (raw_message.foldl
    (fun escaped_msg c =>
      escaped_msg ++ (if c = 0x10 ∨ c = 0x0d then [0x10, c] else [c]))
    [0x10, 0x02]) ++ [0x10, 0x03]

/-- Modelled from the spec's encoder algorithm (§4.1): the per-byte escaping
body, "for each byte `c` of the input, if `c ∈ {0x10, 0x0d}` emit an extra
`0x10` immediately before `c`; emit `c`". Written from the spec's words, to be
compared with the source definition `encode_can29_message`. -/
def escape_spec : List Nat → List Nat
  | [] => []
  | c :: rest => (if c = 0x10 ∨ c = 0x0d then [0x10, c] else [c]) ++ escape_spec rest

theorem foldl_escape (l : List Nat) (acc : List Nat) :
    l.foldl (fun escaped_msg c =>
      escaped_msg ++ (if c = 0x10 ∨ c = 0x0d then [0x10, c] else [c])) acc
      = acc ++ escape_spec l := by
  induction l generalizing acc with
  | nil => simp [escape_spec]
  | cons c rest ih => simp [escape_spec, List.foldl_cons, ih, List.append_assoc]

theorem encode_eq_spec (m : List Nat) :
    encode_can29_message m = 0x10 :: 0x02 :: (escape_spec m ++ [0x10, 0x03]) := by
  simp [encode_can29_message, foldl_escape]

/-- How one pass of the `for i, c in enumerate(self._input_buffer)` loop in
`Can29SerialReceiverProtocol.__next__` can exit early: `ret m rest` is the
`return message_data` statement (the buffer having been truncated to `rest`,
the bytes after the terminating `0x03`); `exc c` is the
`raise RuntimeError(...)` naming the unexpected byte `c`.  (On the
`c == 0x03` path with no message in progress the code also truncates the
buffer before raising; the truncation is unobservable in the program because
nothing catches the exception, so `exc` does not record it.) -/
inductive ScanExit where
  | ret : List Nat → List Nat → ScanExit
  | exc : Nat → ScanExit
deriving DecidableEq, Repr

/-- One pass of the scanning `for` loop of `__next__` over the byte list,
carrying `ten_found` and `message_data`.  Returns the early exit, or the final
`(ten_found, message_data)` state when the loop runs off the end of the
buffer. -/
def scanChunk : List Nat → Bool → Option (List Nat) →
    Except ScanExit (Bool × Option (List Nat))
  | [], ten_found, message_data => Except.ok (ten_found, message_data)
  | c :: rest, ten_found, message_data =>
    if ten_found then
      if c = 0x02 then
        scanChunk rest false (some [])
      else if c = 0x03 then
        match message_data with
        | some m => Except.error (ScanExit.ret m rest)
        | none => Except.error (ScanExit.exc c)
      else if c = 0x0d ∨ c = 0x10 then
        scanChunk rest false
          (match message_data with
           | some m => some (m ++ [c])
           | none => none)
      else
        Except.error (ScanExit.exc c)
    else
      if c = 0x10 then
        scanChunk rest true message_data
      else
        scanChunk rest false
          (match message_data with
           | some m => some (m ++ [c])
           | none => none)

/-- The observable outcome of one call to `__next__` on a fixed buffer:
`msg m rest` — a decoded message is returned and the buffer becomes `rest`;
`err c` — the `RuntimeError` for unexpected byte `c`;
`noMsg` — `StopIteration` ("no message available"), the buffer untouched
(no truncation runs on this path);
`spin` — the scan pass ended with `message_data` still holding a partial
message, so the enclosing `while True` re-runs the identical pass on the
unchanged buffer: with no concurrent producer the call never terminates. -/
inductive DecodeResult where
  | msg : List Nat → List Nat → DecodeResult
  | err : Nat → DecodeResult
  | noMsg : DecodeResult
  | spin : DecodeResult
deriving DecidableEq, Repr

/-- One call to `Can29SerialReceiverProtocol.__next__` on buffer `buf`. -/
def decode_next (buf : List Nat) : DecodeResult :=
  match scanChunk buf false none with
  | Except.error (ScanExit.ret m rest) => DecodeResult.msg m rest
  | Except.error (ScanExit.exc c) => DecodeResult.err c
  | Except.ok (_, none) => DecodeResult.noMsg
  | Except.ok (_, some _) => DecodeResult.spin

theorem scanChunk_append (a b : List Nat) (tf : Bool) (md : Option (List Nat)) :
    scanChunk (a ++ b) tf md =
      match scanChunk a tf md with
      | Except.ok (tf2, md2) => scanChunk b tf2 md2
      | Except.error (ScanExit.ret m r) => Except.error (ScanExit.ret m (r ++ b))
      | Except.error (ScanExit.exc c) => Except.error (ScanExit.exc c) := by
  induction a generalizing tf md with
  | nil => simp [scanChunk]
  | cons c rest ih =>
    by_cases htf : tf
    · by_cases h2 : c = 0x02
      · simp [scanChunk, htf, h2, ih]
      · by_cases h3 : c = 0x03
        · cases md with
          | some m => simp [scanChunk, htf, h2, h3]
          | none => simp [scanChunk, htf, h2, h3]
        · by_cases h4 : c = 0x0d ∨ c = 0x10
          · simp [scanChunk, htf, h2, h3, h4, ih]
          · simp [scanChunk, htf, h2, h3, h4]
    · by_cases h1 : c = 0x10
      · simp [scanChunk, htf, h1, ih]
      · simp [scanChunk, htf, h1, ih]

theorem scanChunk_escape (m : List Nat) (acc : List Nat) (r : List Nat) :
    scanChunk (escape_spec m ++ r) false (some acc)
      = scanChunk r false (some (acc ++ m)) := by
  induction m generalizing acc with
  | nil => simp [escape_spec]
  | cons c rest ih =>
    by_cases h : c = 0x10 ∨ c = 0x0d
    · have hne2 : c ≠ 0x02 := by rcases h with h | h <;> omega
      have hne3 : c ≠ 0x03 := by rcases h with h | h <;> omega
      have h4 : c = 0x0d ∨ c = 0x10 := h.symm
      simp only [escape_spec, if_pos h, List.cons_append, List.append_assoc, List.nil_append]
      rw [show scanChunk (0x10 :: (c :: (escape_spec rest ++ r))) false (some acc)
            = scanChunk (c :: (escape_spec rest ++ r)) true (some acc) by
          simp [scanChunk]]
      rw [show scanChunk (c :: (escape_spec rest ++ r)) true (some acc)
            = scanChunk (escape_spec rest ++ r) false (some (acc ++ [c])) by
          simp [scanChunk, hne2, hne3, h4]]
      rw [ih]
      simp
    · have h1 : c ≠ 0x10 := fun hc => h (Or.inl hc)
      simp only [escape_spec, if_neg h, List.cons_append, List.append_assoc, List.nil_append]
      rw [show scanChunk (c :: (escape_spec rest ++ r)) false (some acc)
            = scanChunk (escape_spec rest ++ r) false (some (acc ++ [c])) by
          simp [scanChunk, h1]]
      rw [ih]
      simp

theorem decode_encode_append (m rest : List Nat) :
    decode_next (encode_can29_message m ++ rest) = DecodeResult.msg m rest := by
  have h : encode_can29_message m ++ rest
      = 0x10 :: 0x02 :: (escape_spec m ++ ([0x10, 0x03] ++ rest)) := by
    simp [encode_eq_spec]
  rw [decode_next, h]
  rw [show scanChunk (0x10 :: 0x02 :: (escape_spec m ++ ([0x10, 0x03] ++ rest))) false none
        = scanChunk (escape_spec m ++ ([0x10, 0x03] ++ rest)) false (some []) by
      simp [scanChunk]]
  rw [scanChunk_escape]
  simp [scanChunk]

/-- `CANCommunication.send_raw`: assert `bytes[2] == len(bytes) - 5` (the
index read itself can raise `IndexError`; the comparison is over Python
integers, so the right-hand side may be negative — hence `Int`), then call
`send_message` with the positional fields; keyword arguments are evaluated in
the order written in the source.  `Except.ok` is the one path on which the
backend's send is invoked. -/
def send_raw (bytes : List Nat) : Except PyError SentMessage := do
  let b2 ← idx bytes 2
  if (b2 : Int) = (bytes.length : Int) - 5 then do
    let b0 ← idx bytes 0
    let b1 ← idx bytes 1
    let b3 ← idx bytes 3
    let b4 ← idx bytes 4
    let b5 ← idx bytes 5
    let b6 ← idx bytes 6
    Except.ok
      { destination_addr := b0
        source_addr := b1
        cmd_class := b3
        cmd_number := b4
        sub_nr := b6
        proc_id := b5
        extra_data := if bytes.length > 6 then some (bytes.drop 7) else none }
  else
    Except.error PyError.assertionError

/-- The short-circuiting trigger condition of the enumeration workaround in
`start_can_forwarder`, given that `zeiss_can_port._d.Simulated` already held:
`raw_message[3] == 0x15 and raw_message[4] == 0xa0 and raw_message[6] == 0xfe`.
Later indices are only read (and can only raise) when the earlier conjuncts
hold. -/
def triggerCheck (msg : List Nat) : Except PyError Bool := do
  let b3 ← idx msg 3
  if b3 = 0x15 then do
    let b4 ← idx msg 4
    if b4 = 0xa0 then do
      let b6 ← idx msg 6
      pure (b6 = 0xfe)
    else
      pure false
  else
    pure false

/-- The body of `start_can_forwarder`'s loop for one decoded message, with the
backend's `Simulated` flag and device-id list as parameters.  The result is
the list of byte strings written to the serial port (each synthetic reply
already passed through `encode_can29_message`) and the message handed to the
backend, if any.  The per-iteration reads `raw_message[0]`, `[1]`, `[4]`,
`[5]`, `[6]` of the reply-building loop are hoisted before it: the trigger
already read index 6, so all succeed and hoisting is unobservable (with an
empty device list the Python loop body never runs, but then nothing is read
or written on either rendering). -/
def process_message (simulated : Bool) (dev_ids : List Nat) (msg : List Nat) :
    Except PyError (List (List Nat) × Option SentMessage) := do
  let trig ← if simulated then triggerCheck msg else pure false
  if trig then do
    let b0 ← idx msg 0
    let b1 ← idx msg 1
    let b4 ← idx msg 4
    let b5 ← idx msg 5
    let b6 ← idx msg 6
    let replies := dev_ids.enum.map fun p =>
      [b1, b0, 0x04, if p.1 + 1 = dev_ids.length then 0x09 else 0x05,
       b4, b5, b6, p.2, 3]
    Except.ok (replies.map encode_can29_message, none)
  else do
    let s ← send_raw msg
    Except.ok ([], some s)

/-- The `for raw_message in can_input_protocol:` loop applied to a list of
already-decoded messages: effects accumulate in order, and an exception in one
iteration propagates (there is no `try`/`except` in `start_can_forwarder`),
abandoning all later messages. -/
def process_messages (simulated : Bool) (dev_ids : List Nat) :
    List (List Nat) → Except PyError (List (List Nat) × List SentMessage)
  | [] => Except.ok ([], [])
  | msg :: rest => do
    let (w, s) ← process_message simulated dev_ids msg
    let (ws, ss) ← process_messages simulated dev_ids rest
    Except.ok (w ++ ws, s.toList ++ ss)

/-- The observable effect of one invocation of the outbound callback. -/
structure CbEffect where
  written : List Nat
  flushed : Bool
deriving DecidableEq, Repr

/-- `msg_cb_fun` from `start_can_forwarder`: print the message, call
`rt.write(bytes(raw_message))` — `bytes(...)` only converts the container, the
byte values are unchanged — then `flushOutput()` under the protocol lock. -/
def msg_cb_fun (raw_message : List Nat) : CbEffect :=
  { written := raw_message, flushed := true }

@[simp] theorem exceptBind_ok {ε α β : Type} (a : α) (f : α → Except ε β) :
    (Except.ok a >>= f) = f a := rfl

@[simp] theorem exceptBind_error {ε α β : Type} (e : ε) (f : α → Except ε β) :
    ((Except.error e : Except ε α) >>= f) = Except.error e := rfl

@[simp] theorem exceptPure_eq {ε α : Type} (a : α) :
    (pure a : Except ε α) = Except.ok a := rfl

/-- C8: the encoder emits `[0x10, 0x02]`, then the input bytes in order with an
extra `0x10` before every `0x10` or `0x0d`, then `[0x10, 0x03]`, for every
input including the empty one (the total function `encode_can29_message`
never fails); with the three concrete escape examples. -/
theorem encoder_algorithm_correct :
    (∀ m : List Nat,
      encode_can29_message m = 0x10 :: 0x02 :: (escape_spec m ++ [0x10, 0x03])) ∧
    encode_can29_message [0x10] = [0x10, 0x02, 0x10, 0x10, 0x10, 0x03] ∧
    encode_can29_message [0x0d] = [0x10, 0x02, 0x10, 0x0d, 0x10, 0x03] ∧
    encode_can29_message [0x41] = [0x10, 0x02, 0x41, 0x10, 0x03] :=
  ⟨encode_eq_spec, rfl, rfl, rfl⟩

/-- C1: round-trip of the frame codec — decoding the encoding of any byte
sequence `m` returns exactly `m`, consuming the whole frame and leaving an
empty remaining buffer.  (Proved without the claim's side condition, which is
therefore implied: it holds for every `m`.) -/
theorem decode_encode_roundtrip (m : List Nat) :
    decode_next (encode_can29_message m) = DecodeResult.msg m [] := by
  have h := decode_encode_append m []
  simpa using h

/-- C2: what the outbound callback actually does — `msg_cb_fun` writes the raw
decoded message bytes unchanged to the serial output and flushes, with no
`encode_can29_message` applied before the write; at the concrete message
`[0x41]` the written bytes differ from the frame-encoded form. -/
theorem outbound_callback_writes_raw :
    (∀ m : List Nat, msg_cb_fun m = { written := m, flushed := true }) ∧
    (msg_cb_fun [0x41]).written ≠ encode_can29_message [0x41] :=
  ⟨fun _ => rfl, by decide⟩

/-- C4: a stray terminator — `0x10 0x03` reached with no message in progress —
makes `__next__` raise the `RuntimeError` for unexpected byte `0x03` (after the
dead buffer truncation), rather than skipping it and continuing; even a valid
frame right after the stray terminator is never returned. -/
theorem decoder_stray_terminator_raises :
    decode_next [0x10, 0x03] = DecodeResult.err 0x03 ∧
    decode_next ([0x10, 0x03] ++ encode_can29_message [0x41]) = DecodeResult.err 0x03 :=
  ⟨rfl, rfl⟩

theorem scanChunk_no_dle (buf : List Nat) (h : (0x10 : Nat) ∉ buf) :
    scanChunk buf false none = Except.ok (false, none) := by
  induction buf with
  | nil => rfl
  | cons c rest ih =>
    simp only [List.mem_cons, not_or] at h
    have hc : c ≠ 0x10 := Ne.symm h.1
    simp [scanChunk, hc, ih h.2]

/-- C6 counterexample: the buffer `[0x10, 0x02, 0x55]` holds no complete frame,
yet `__next__` does not signal "no complete message available": the scan pass
ends with a partial message, so the `while True` loop re-scans the unchanged
buffer forever (`spin`), instead of raising `StopIteration` (`noMsg`). -/
theorem decoder_truncated_frame_spins_cex :
    decode_next [0x10, 0x02, 0x55] = DecodeResult.spin ∧
    DecodeResult.spin ≠ DecodeResult.noMsg :=
  ⟨rfl, by decide⟩

/-- C6 (amended): decoding a buffer that starts with one complete frame
returns its message and leaves exactly the trailing bytes (e.g. a truncated
second frame) in the buffer; a buffer holding a started, unfinished frame
makes the call re-scan forever (`spin`) rather than signal; only a buffer in
which no frame start is reached (here: one with no `0x10` at all) terminates
with the "no complete message available" signal, the buffer left intact. -/
theorem decoder_exhausted_buffer_behavior :
    (∀ m rest : List Nat,
      decode_next (encode_can29_message m ++ rest) = DecodeResult.msg m rest) ∧
    decode_next [0x10, 0x02, 0x55] = DecodeResult.spin ∧
    (∀ buf : List Nat, (0x10 : Nat) ∉ buf → decode_next buf = DecodeResult.noMsg) := by
  refine ⟨decode_encode_append, rfl, ?_⟩
  intro buf h
  rw [decode_next, scanChunk_no_dle buf h]

theorem decoder_exhausted_buffer_behavior_witness :
    decode_next [0x41, 0x42] = DecodeResult.noMsg :=
  decoder_exhausted_buffer_behavior.2.2 [0x41, 0x42] (by decide)

/-- C7 counterexample: the buffer `[0x10,0x02,0x10,0x10,0x55,0x10,0x03]`
contains a `0x10` byte (the escaped one at index 3) followed by `0x55`, a byte
outside `{0x02, 0x03, 0x0d, 0x10}`, yet decoding raises no error: it returns
the message `[0x10, 0x55]` — the offending `0x10` was itself escaped data. -/
theorem decoder_escaped_dle_no_error_cex :
    decode_next [0x10, 0x02, 0x10, 0x10, 0x55, 0x10, 0x03]
      = DecodeResult.msg [0x10, 0x55] [] ∧
    DecodeResult.msg [0x10, 0x55] [] ≠ DecodeResult.err 0x55 :=
  ⟨rfl, by decide⟩

/-- C7 (amended): when the scanner reaches a `0x10` with no pending escape
(any prefix whose scan ends in state `ten_found = false` without returning or
raising) and the next byte `c` is outside `{0x02, 0x03, 0x0d, 0x10}`, the
decode attempt raises the framing error identifying `c` and returns no
message. -/
theorem decoder_malformed_escape_errors
    (pre : List Nat) (c : Nat) (rest : List Nat) (md : Option (List Nat))
    (hpre : scanChunk pre false none = Except.ok (false, md))
    (hc : ¬(c = 0x02 ∨ c = 0x03 ∨ c = 0x0d ∨ c = 0x10)) :
    decode_next (pre ++ 0x10 :: c :: rest) = DecodeResult.err c := by
  have h2 : c ≠ 0x02 := fun h => hc (Or.inl h)
  have h3 : c ≠ 0x03 := fun h => hc (Or.inr (Or.inl h))
  have h4 : ¬(c = 0x0d ∨ c = 0x10) := fun h => hc (Or.inr (Or.inr h))
  rw [decode_next, scanChunk_append, hpre]
  simp [scanChunk, h2, h3, h4]

theorem decoder_malformed_escape_errors_witness :
    decode_next [0x10, 0x55] = DecodeResult.err 0x55 :=
  decoder_malformed_escape_errors [] 0x55 [] none rfl (by decide)

/-- C9: length validation precedes the backend — whenever byte 2 exists but
differs from the message's total length minus 5, `send_raw` stops with the
`AssertionError`; `Except.ok` being the only path on which the backend's
`SendMessage` is invoked, the backend is never called with such a message. -/
theorem send_raw_length_validation (msg : List Nat) (b2 : Nat)
    (h2 : msg[2]? = some b2) (hne : (b2 : Int) ≠ (msg.length : Int) - 5) :
    send_raw msg = Except.error PyError.assertionError := by
  simp [send_raw, idx, h2, hne]

theorem send_raw_length_validation_witness :
    send_raw [1, 2, 9, 4, 5, 6, 7] = Except.error PyError.assertionError :=
  send_raw_length_validation [1, 2, 9, 4, 5, 6, 7] 9 rfl (by decide)

/-- C5 counterexample: a length-mismatched message followed by a well-formed
one — processing the list aborts with the uncaught `AssertionError`, and the
subsequent frame is never forwarded (processed alone it would be), refuting
"the forwarding loop continues processing subsequent frames". -/
theorem forwarder_length_mismatch_halts_cex :
    process_messages false [] [[0, 0, 9, 0, 0, 0, 0], [1, 2, 2, 3, 4, 5, 6]]
      = Except.error PyError.assertionError ∧
    process_messages false [] [[1, 2, 2, 3, 4, 5, 6]]
      = Except.ok ([], [{ destination_addr := 1, source_addr := 2, cmd_class := 3,
                          cmd_number := 4, sub_nr := 6, proc_id := 5,
                          extra_data := some [] }]) :=
  ⟨rfl, rfl⟩

/-- C5 (amended): a declared-length mismatch makes `send_raw` fail its
assertion, so the message is never handed to the backend — but the
`AssertionError` propagates uncaught through the forwarding loop, terminating
it instead of letting it continue with subsequent frames. -/
theorem forwarder_length_mismatch_rejects (msg : List Nat) (b2 : Nat)
    (dev_ids : List Nat) (rest : List (List Nat))
    (h2 : msg[2]? = some b2) (hne : (b2 : Int) ≠ (msg.length : Int) - 5) :
    send_raw msg = Except.error PyError.assertionError ∧
    process_messages false dev_ids (msg :: rest) = Except.error PyError.assertionError := by
  have hs : send_raw msg = Except.error PyError.assertionError := by
    simp [send_raw, idx, h2, hne]
  exact ⟨hs, by simp [process_messages, process_message, hs]⟩

theorem forwarder_length_mismatch_rejects_witness :
    send_raw [0, 0, 5, 0, 0, 0, 0] = Except.error PyError.assertionError ∧
    process_messages false [] [[0, 0, 5, 0, 0, 0, 0]] = Except.error PyError.assertionError :=
  forwarder_length_mismatch_rejects [0, 0, 5, 0, 0, 0, 0] 5 [] [] rfl (by decide)

/-- C3: with a simulated backend, an inbound message whose `cmd_class` is
`0x15`, `cmd_number` is `0xa0` and `sub_nr` is `0xfe` is intercepted: the
forwarder writes exactly one frame-encoded synthetic reply per device id, in
device-list order, the reply at position `i` being
`[source, dest, 0x04, 0x09 if last else 0x05, cmd_number, proc_id, sub_nr,
device_id, 3]`, and the original message is never handed to the backend
(`none`); instantiated for device ids `(3, 7)` this gives the two replies with
continuation bytes `0x05` then `0x09`. -/
theorem forwarder_enumeration_emulation :
    (∀ (dev_ids : List Nat) (A B L P : Nat) (rest : List Nat),
      process_message true dev_ids (A :: B :: L :: 0x15 :: 0xa0 :: P :: 0xfe :: rest)
        = Except.ok ((dev_ids.enum.map fun p =>
            encode_can29_message
              [B, A, 0x04, if p.1 + 1 = dev_ids.length then 0x09 else 0x05,
               0xa0, P, 0xfe, p.2, 3]), none)) ∧
    (∀ A B P : Nat,
      process_message true [3, 7] [A, B, 0x04, 0x15, 0xa0, P, 0xfe]
        = Except.ok ([encode_can29_message [B, A, 0x04, 0x05, 0xa0, P, 0xfe, 3, 3],
                      encode_can29_message [B, A, 0x04, 0x09, 0xa0, P, 0xfe, 7, 3]], none)) := by
  constructor
  · intro dev_ids A B L P rest
    simp [process_message, triggerCheck, idx, List.map_map, Function.comp]
  · intro A B P
    simp [process_message, triggerCheck, idx, List.enum, List.enumFrom]

theorem send_raw_short (msg : List Nat) (h : msg.length < 7) :
    ∃ e, send_raw msg = Except.error e := by
  rcases msg with _ | ⟨a, _ | ⟨b, _ | ⟨c, _ | ⟨d, _ | ⟨e, _ | ⟨f, _ | ⟨g, t⟩⟩⟩⟩⟩⟩⟩
  · exact ⟨PyError.indexError, rfl⟩
  · exact ⟨PyError.indexError, rfl⟩
  · exact ⟨PyError.indexError, rfl⟩
  · refine ⟨PyError.assertionError, ?_⟩
    have hc : ¬((c : Int) = (([a, b, c] : List Nat).length : Int) - 5) := by
      simp only [List.length_cons, List.length_nil]
      omega
    simp [send_raw, idx, hc]
  · refine ⟨PyError.assertionError, ?_⟩
    have hc : ¬((c : Int) = (([a, b, c, d] : List Nat).length : Int) - 5) := by
      simp only [List.length_cons, List.length_nil]
      omega
    simp [send_raw, idx, hc]
  · by_cases hc : c = 0
    · exact ⟨PyError.indexError, by simp [send_raw, idx, hc]⟩
    · exact ⟨PyError.assertionError, by simp [send_raw, idx, hc]⟩
  · by_cases hc : c = 1
    · exact ⟨PyError.indexError, by simp [send_raw, idx, hc]⟩
    · exact ⟨PyError.assertionError, by simp [send_raw, idx, hc]⟩
  · simp only [List.length_cons] at h
    omega

theorem triggerCheck_short (msg : List Nat) (h : msg.length < 7) :
    triggerCheck msg = Except.error PyError.indexError ∨ triggerCheck msg = Except.ok false := by
  rcases msg with _ | ⟨a, _ | ⟨b, _ | ⟨c, _ | ⟨d, _ | ⟨e, _ | ⟨f, _ | ⟨g, t⟩⟩⟩⟩⟩⟩⟩
  · exact Or.inl rfl
  · exact Or.inl rfl
  · exact Or.inl rfl
  · exact Or.inl rfl
  · by_cases hd : d = 0x15
    · exact Or.inl (by simp [triggerCheck, idx, hd])
    · exact Or.inr (by simp [triggerCheck, idx, hd])
  · by_cases hd : d = 0x15
    · by_cases he : e = 0xa0
      · exact Or.inl (by simp [triggerCheck, idx, hd, he])
      · exact Or.inr (by simp [triggerCheck, idx, hd, he])
    · exact Or.inr (by simp [triggerCheck, idx, hd])
  · by_cases hd : d = 0x15
    · by_cases he : e = 0xa0
      · exact Or.inl (by simp [triggerCheck, idx, hd, he])
      · exact Or.inr (by simp [triggerCheck, idx, hd, he])
    · exact Or.inr (by simp [triggerCheck, idx, hd])
  · simp only [List.length_cons] at h
    omega

/-- C10 counterexample: the 4-byte message `[0, 0, 0, 0]` is shorter than 7
bytes, yet processing it (simulated backend, device ids `(3, 7)`) raises the
length `AssertionError` — the declared-length check fires before any
out-of-range index is read — not an `IndexError` as the claim states. -/
theorem forwarder_short_message_assert_cex :
    process_message true [3, 7] [0, 0, 0, 0] = Except.error PyError.assertionError ∧
    process_message true [3, 7] [0, 0, 0, 0] ≠ Except.error PyError.indexError := by
  refine ⟨rfl, fun h => ?_⟩
  have h2 : (Except.error PyError.assertionError :
      Except PyError (List (List Nat) × Option SentMessage))
      = Except.error PyError.indexError := h
  exact absurd (Except.error.inj h2) (by decide)

/-- C10 (amended): every decoded message shorter than 7 bytes makes the
forwarder's per-message processing raise an uncaught exception — an
`IndexError` when a read past the end is reached (as for the empty decoded
frame, which always gives `IndexError`), otherwise the length
`AssertionError` — rather than rejecting or skipping the message gracefully. -/
theorem forwarder_short_message_errors :
    (∀ (simulated : Bool) (dev_ids : List Nat) (msg : List Nat), msg.length < 7 →
      ∃ e, process_message simulated dev_ids msg = Except.error e) ∧
    (∀ (simulated : Bool) (dev_ids : List Nat),
      process_message simulated dev_ids [] = Except.error PyError.indexError) := by
  constructor
  · intro simulated dev_ids msg h
    cases simulated with
    | false =>
      obtain ⟨e, he⟩ := send_raw_short msg h
      exact ⟨e, by simp [process_message, he]⟩
    | true =>
      rcases triggerCheck_short msg h with ht | ht
      · exact ⟨PyError.indexError, by simp [process_message, ht]⟩
      · obtain ⟨e, he⟩ := send_raw_short msg h
        exact ⟨e, by simp [process_message, ht, he]⟩
  · intro simulated dev_ids
    cases simulated
    · rfl
    · rfl

theorem forwarder_short_message_errors_witness :
    ∃ e, process_message false [] [0, 0, 0, 0, 0] = Except.error e :=
  forwarder_short_message_errors.1 false [] [0, 0, 0, 0, 0] (by decide)
